import Mathlib

/-!
Verification development for the BrainVoyager SDM synthesis scripts
(`read_prt_write_sdm.py` and
`scripts_bids_derivatives/plot-motion_compute-extended-motion-sdm-fd.py`).

Python floats are modelled as exact rationals; values that the code sends
through `numpy.std`, `scipy.stats.zscore` or `math.pi` are modelled in the
real numbers.  `scipy.signal.resample_poly` is an external library call and
is treated as a parameter; where a result depends on it we only use its
documented output-length law `len = ceil(len(x) * up / down)`.
-/

namespace BV

/-- Truncation toward zero, the semantics of the Python builtin `int()`
applied to a (nonnegative or negative) numeric value. -/
def pyInt (q : ℚ) : ℤ := if 0 ≤ q then ⌊q⌋ else ⌈q⌉

/-- Maximum of a list, as `numpy.max` and the Python builtin `max` compute it
on a nonempty sequence.  The empty case (which raises in Python) is given the
junk value 0. -/
def npMax {α : Type} [LinearOrder α] [Zero α] (l : List α) : α :=
  match l with
  | [] => 0
  | x :: xs => xs.foldl max x

/-- Minimum of a list, as `numpy.min` computes it on a nonempty sequence.
The empty case (which raises in Python) is given the junk value 0. -/
def npMin {α : Type} [LinearOrder α] [Zero α] (l : List α) : α :=
  match l with
  | [] => 0
  | x :: xs => xs.foldl min x

/-- Arithmetic mean of a list, as `numpy.mean`.  Empty input (NaN in NumPy)
is given the junk value 0 via division by zero. -/
def npMean (l : List ℚ) : ℚ := l.sum / l.length

/-- Population variance of a list, as computed inside `numpy.std` with the
default `ddof=0`. -/
def npVar (l : List ℚ) : ℚ := ((l.map (fun x => (x - npMean l) ^ 2)).sum) / l.length

/-- Population standard deviation, `numpy.std` with the default `ddof=0`. -/
noncomputable def npStd (l : List ℚ) : ℝ := Real.sqrt (npVar l)

/- ===================== HRF kernel builder (twogamma_hrf) ===================

The raw two-gamma kernel is produced by `scipy.stats.gamma.pdf` and is
transcendental; the normalization stage of `twogamma_hrf` (source lines
118-134) is a pure function of the raw kernel values and the two flags, and
is embedded here over an arbitrary kernel list.  Source:

    max_hrf = np.max(hrf); min_hrf = np.min(hrf); sum_hrf = np.sum(hrf)
    abs_fmax = max(abs(min_hrf), abs(max_hrf))
    if ScaleToOne or sum_hrf <= 0.01: DivideBySum = False
    elif DivideBySum: ScaleToOne = False
    if abs_fmax < 0.0001: ScaleToOne = False
    if ScaleToOne: hrf /= abs_fmax
    if DivideBySum: hrf /= sum_hrf
-/

/-- Peak absolute value of the kernel, `max(abs(min_hrf), abs(max_hrf))`. -/
def absFmax (hrf : List ℚ) : ℚ := max |npMin hrf| |npMax hrf|

/-- Normalization stage of `twogamma_hrf` (source lines 118-134), embedded
over an arbitrary raw kernel. -/
def hrf_normalize (hrf : List ℚ) (ScaleToOne DivideBySum : Bool) : List ℚ :=
  let sum_hrf := hrf.sum
  let abs_fmax := absFmax hrf
  let DivideBySum2 := if ScaleToOne = true ∨ sum_hrf ≤ 1/100 then false else DivideBySum
  let ScaleToOne2 :=
    if ScaleToOne = true ∨ sum_hrf ≤ 1/100 then ScaleToOne
    else if DivideBySum = true then false else ScaleToOne
  let ScaleToOne3 := if abs_fmax < 1/10000 then false else ScaleToOne2
  let hrf2 := if ScaleToOne3 = true then hrf.map (fun v => v / abs_fmax) else hrf
  if DivideBySum2 = true then hrf2.map (fun v => v / sum_hrf) else hrf2

/- ===================== Interval rasterizer (lines 172-185, 194-208) ====== -/

/-- NumPy basic slice assignment `arr[start : stop+1] = v` for integer
bounds with `0 ≤ start` (negative indices, which wrap around in NumPy, do
not occur on the code paths modelled here): every position `i` with
`start ≤ i ≤ stop` that lies inside the array is overwritten with `v`;
positions past the end of the array are silently dropped, never an error. -/
def slice_assign {α : Type} : List α → ℤ → ℤ → α → List α
  | [], _, _, _ => []
  | x :: xs, start, stop, v =>
      (if start ≤ 0 ∧ 0 ≤ stop then v else x) :: slice_assign xs (start - 1) (stop - 1) v

/-- Number of high-resolution samples, source lines 172-173:
`n_timepoints_sec = (n_vols * TR) / 1000` and
`n_timepoints_hires = int(n_timepoints_sec * fs)`. -/
def n_timepoints_hires (n_vols : ℕ) (TR fs : ℚ) : ℕ :=
  (pyInt ((n_vols : ℚ) * TR / 1000 * fs)).toNat

/-- Interval start in seconds, source lines 177-181. -/
def start_sec (prt_is_msec : Bool) (TR start : ℚ) : ℚ :=
  if prt_is_msec = true then start / 1000 else start * TR / 1000 - TR / 1000

/-- Interval stop in seconds, source lines 177-182. -/
def stop_sec (prt_is_msec : Bool) (TR stop : ℚ) : ℚ :=
  if prt_is_msec = true then stop / 1000 else stop * TR / 1000

/-- `start_idx = int(start_sec * fs)`, source line 183. -/
def start_idx (prt_is_msec : Bool) (TR fs start : ℚ) : ℤ :=
  pyInt (start_sec prt_is_msec TR start * fs)

/-- `stop_idx = int(stop_sec * fs)`, source line 184. -/
def stop_idx (prt_is_msec : Bool) (TR fs stop : ℚ) : ℤ :=
  pyInt (stop_sec prt_is_msec TR stop * fs)

/-- Boxcar rasterizer, source lines 174-185: a zero array of
`n_timepoints_hires` samples on which each interval writes 1.0 over
`[start_idx, stop_idx]` by slice assignment. -/
def pred_block_hires {α : Type} [LinearOrderedField α] (starts stops : List ℚ)
    (prt_is_msec : Bool) (TR : ℚ) (n_vols : ℕ) (fs : ℚ) : List α :=
  (starts.zip stops).foldl
    (fun arr p => slice_assign arr (start_idx prt_is_msec TR fs p.1)
      (stop_idx prt_is_msec TR fs p.2) 1)
    (List.replicate (n_timepoints_hires n_vols TR fs) 0)

/-- Weighted rasterizer, source lines 194-208: like `pred_block_hires` but
each interval writes its own weight. -/
def pred_weights_hires {α : Type} [LinearOrderedField α] (starts stops : List ℚ)
    (weights : List α) (prt_is_msec : Bool) (TR : ℚ) (n_vols : ℕ) (fs : ℚ) : List α :=
  ((starts.zip stops).zip weights).foldl
    (fun arr p => slice_assign arr (start_idx prt_is_msec TR fs p.1.1)
      (stop_idx prt_is_msec TR fs p.1.2) p.2)
    (List.replicate (n_timepoints_hires n_vols TR fs) 0)

/-- Modelled from the claim wording for comparison, NOT from the source: a
millisecond-resolution rasterizer whose indices are `round(start_ms/1000*fs)`
and `round(stop_ms/1000*fs)` (round to nearest) and whose output length is
`round(n_volumes * tr_ms / 1000 * fs)`. -/
def pred_block_hires_spec (starts stops : List ℚ) (TR : ℚ) (n_vols : ℕ) (fs : ℚ) : List ℚ :=
  (starts.zip stops).foldl
    (fun arr p => slice_assign arr (round (p.1 / 1000 * fs)) (round (p.2 / 1000 * fs)) 1)
    (List.replicate (round ((n_vols : ℚ) * TR / 1000 * fs)).toNat 0)

/- ============== Convolution and resampling (lines 188-190) =============== -/

/-- Full discrete linear convolution, `numpy.convolve(a, v)` with the
default full mode: output index `k` holds the sum of `a[i] * v[k - i]`.
NumPy raises on empty input; the modelled code paths use nonempty inputs. -/
def convolve {α : Type} [LinearOrderedField α] (a v : List α) : List α :=
  (List.range (a.length + v.length - 1)).map
    (fun k => ∑ i ∈ Finset.range (k + 1), a.getD i 0 * v.getD (k - i) 0)

/-- `samples_per_TR = int(fs * TR / 1000)`, source line 189. -/
def samples_per_TR (fs TR : ℚ) : ℕ := (pyInt (fs * TR / 1000)).toNat

/-- Convolve-and-resample pipeline, source lines 188-190.  The argument
`resample` stands for the external `scipy.signal.resample_poly(x, up=1,
down=q)`; the source truncates its result to `n_vols` samples by slicing
and performs no length check of any kind. -/
def pred_conv {α : Type} [LinearOrderedField α] (resample : List α → ℕ → List α)
    (pred_block hrf : List α) (fs TR : ℚ) (n_vols : ℕ) : List α :=
  let pred_conv_hires := (convolve pred_block hrf).take pred_block.length
  (resample pred_conv_hires (samples_per_TR fs TR)).take n_vols

/-- Error taxonomy named by the specification; the scripts raise none of
these. -/
inductive SdmErr : Type
  | outOfRangeInterval
  | resampleLengthMismatch
  | zeroVariance
deriving DecidableEq

/-- Modelled from the spec for comparison, NOT from the source (which has no
such check): a convolve-and-resample that raises `ResampleLengthMismatch`
when the length produced by polyphase resampling differs from the expected
`n_volumes`. -/
def convolve_and_resample_spec {α : Type} [LinearOrderedField α]
    (resample : List α → ℕ → List α) (pred_block hrf : List α)
    (fs TR : ℚ) (n_vols : ℕ) : Except SdmErr (List α) :=
  let produced := resample ((convolve pred_block hrf).take pred_block.length)
    (samples_per_TR fs TR)
  if produced.length = n_vols then Except.ok produced
  else Except.error SdmErr.resampleLengthMismatch

/-- A concrete stand-in resampler obeying the documented output-length law
of `scipy.signal.resample_poly` with `up = 1`, namely `ceil(len(x) / down)`
output samples (plain decimation; used to witness length behavior only). -/
def resample0 (xs : List ℚ) (q : ℕ) : List ℚ :=
  (List.range ((xs.length + q - 1) / q)).map (fun k => xs.getD (k * q) 0)

/- ================= Weight standardizer (lines 75-88) ===================== -/

/-- Weight standardization `create_weights(a, b)`, source lines 75-88:
mode 0 returns the weights unchanged, mode 1 subtracts the mean, mode 2
divides the demeaned weights by the standard deviation.  The function is
total: no zero-variance check exists in the source; on constant input NumPy
emits NaN values (without raising), modelled here by division by zero. -/
noncomputable def create_weights (a : List ℚ) (b : Fin 3) : List ℝ :=
  if b = 0 then a.map (fun x => (x : ℝ))
  else if b = 1 then a.map (fun x => ((x - npMean a : ℚ) : ℝ))
  else a.map (fun x => ((x - npMean a : ℚ) : ℝ) / npStd a)

/-- Modelled from the spec for comparison, NOT from the source (which has no
such check): a standardizer that raises `ZeroVariance` when mode 2 is
requested on a vector whose standard deviation (equivalently variance) is
zero. -/
noncomputable def standardize_spec (a : List ℚ) (b : Fin 3) : Except SdmErr (List ℝ) :=
  if b = 2 ∧ npVar a = 0 then Except.error SdmErr.zeroVariance
  else Except.ok (create_weights a b)

/- ================= SDM assembly (lines 155-245) ========================== -/

/-- One SDM predictor entry: the three keys the scripts store per predictor
(NameOfPredictor, ColorOfPredictor, ValuesOfPredictor). -/
structure Pred (α : Type) where
  name : String
  color : List ℕ
  values : List α
deriving DecidableEq

/-- The SDM header fields written by the scripts, source lines 244-245. -/
structure SdmHeader where
  FileVersion : ℕ
  NrOfPredictors : ℕ
  NrOfDataPoints : ℕ
  IncludesConstant : ℕ
  FirstConfoundPredictor : ℕ
deriving DecidableEq

/-- The protocol fields consumed per condition. -/
structure Cond where
  name : String
  color : List ℕ
  starts : List ℚ
  stops : List ℚ
  pweights : List ℚ
deriving DecidableEq

/-- The protocol header field consumed: the optional ParametricWeights key
(`none` models the key being absent). -/
structure PrtHeader where
  parametricWeights : Option ℤ
deriving DecidableEq

/-- Condition for emitting a parametric predictor, source lines 159-165:
the ParametricWeights key is present with value 1, parametric SDM
generation is enabled, and the weights of this condition take more than one
distinct value (`len(np.unique(...)) > 1`). -/
def add_parametric_predictor (hdr : PrtHeader) (define_para_sdm : Bool) (cond : Cond) : Prop :=
  hdr.parametricWeights = some 1 ∧ define_para_sdm = true ∧ 1 < cond.pweights.dedup.length

instance (hdr : PrtHeader) (d : Bool) (c : Cond) :
    Decidable (add_parametric_predictor hdr d c) := by
  unfold add_parametric_predictor; infer_instance

/-- Predictor emission for one condition, source lines 157-235.  The main
convolved predictor (optionally scaled to unit amplitude) is appended; when
`add_parametric_predictor` holds, the main predictor is renamed with the
Main tag and a parametric predictor with the convolved weighted boxcar
follows it.  The in-place rename of `sdm_data[-2]` in the source is
rendered as replacing the last appended record. -/
noncomputable def emit_cond (resample : List ℝ → ℕ → List ℝ) (hrf : List ℝ)
    (fs TR : ℚ) (n_vols : ℕ) (prt_is_msec ScalePred1 define_para_sdm : Bool)
    (standardize_weights : Fin 3) (hdr : PrtHeader)
    (sdm : List (Pred ℝ)) (cond : Cond) : List (Pred ℝ) :=
  let block : List ℝ := pred_block_hires cond.starts cond.stops prt_is_msec TR n_vols fs
  let pc0 := pred_conv resample block hrf fs TR n_vols
  let pc := if ScalePred1 = true then pc0.map (fun v => v / npMax pc0) else pc0
  let s1 := sdm ++ [⟨cond.name, cond.color, pc⟩]
  if add_parametric_predictor hdr define_para_sdm cond then
    let weights := create_weights cond.pweights standardize_weights
    let wblock := pred_weights_hires cond.starts cond.stops weights prt_is_msec TR n_vols fs
    let wconv := pred_conv resample wblock hrf fs TR n_vols
    s1.dropLast ++ [⟨cond.name ++ " [Main]", cond.color, pc⟩,
                    ⟨cond.name ++ " [Parametric]", cond.color, wconv⟩]
  else s1

/-- The predictor sequence built by the main loop over conditions, source
lines 155-235. -/
noncomputable def sdm_data_of (resample : List ℝ → ℕ → List ℝ) (hrf : List ℝ)
    (fs TR : ℚ) (n_vols : ℕ) (prt_is_msec ScalePred1 define_para_sdm : Bool)
    (standardize_weights : Fin 3) (hdr : PrtHeader) (conds : List Cond) : List (Pred ℝ) :=
  conds.foldl
    (emit_cond resample hrf fs TR n_vols prt_is_msec ScalePred1 define_para_sdm
      standardize_weights hdr) []

/-- The constant predictor, source lines 238-241: name Constant, white
color, all ones of length `n_vols`. -/
def constant_pred (α : Type) [LinearOrderedField α] (n_vols : ℕ) : Pred α :=
  ⟨"Constant", [255, 255, 255], List.replicate n_vols 1⟩

/-- Source lines 237-241: the constant predictor is appended as the final
entry of the design. -/
def sdm_with_constant {α : Type} [LinearOrderedField α] (sdm : List (Pred α))
    (n_vols : ℕ) : List (Pred α) :=
  sdm ++ [constant_pred α n_vols]

/-- SDM header, source lines 244-245, computed from the final predictor
sequence (the constant already appended). -/
def sdm_header_of {α : Type} (sdm_data : List (Pred α)) (n_vols : ℕ) : SdmHeader :=
  ⟨1, sdm_data.length, n_vols, 1, sdm_data.length⟩

/- ============== Motion confounds (motion-QC script) ====================== -/

/-- Mean over the reals, `numpy.mean`. -/
noncomputable def npMeanR (xs : List ℝ) : ℝ := xs.sum / xs.length

/-- Population variance over the reals, as inside `numpy.std` (ddof 0). -/
noncomputable def npVarR (xs : List ℝ) : ℝ :=
  ((xs.map (fun v => (v - npMeanR xs) ^ 2)).sum) / xs.length

/-- scipy.stats.zscore with the default ddof 0: subtract the mean, divide by
the population standard deviation. -/
noncomputable def zscore (xs : List ℝ) : List ℝ :=
  xs.map (fun v => (v - npMeanR xs) / Real.sqrt (npVarR xs))

/-- numpy.square, elementwise. -/
def npSquare (xs : List ℝ) : List ℝ := xs.map (fun v => v ^ 2)

/-- Predictor record at index i of a motion SDM (the script indexes the
first six directly; out of range raises in Python and is junk here). -/
def predAt (sdm : List (Pred ℝ)) (i : ℕ) : Pred ℝ := (sdm.get? i).getD ⟨"", [], []⟩

/-- Row i of the 6xN motion array vstacked from the first six predictors,
source line 295. -/
def motion_of (sdm : List (Pred ℝ)) (i : Fin 6) : List ℝ := (predAt sdm i).values

/-- numpy.diff along time: element t is `x[t+1] - x[t]`. -/
def listDiff (xs : List ℝ) : List ℝ := List.zipWith (fun a b => a - b) xs.tail xs

/-- Derivative row with a leading zero, source line 296:
`np.insert(np.diff(motion, axis=1), 0, 0, axis=1)`. -/
def motion_d_of (sdm : List (Pred ℝ)) (i : Fin 6) : List ℝ := 0 :: listDiff (motion_of sdm i)

/-- One block of six z-scored rows for the combined model, mirroring each of
the four comprehension loops in source lines 309-338: a deep copy of the
predictor record with the values replaced and the tag appended to the name. -/
noncomputable def combined_block (sdm : List (Pred ℝ)) (rows : Fin 6 → List ℝ)
    (tag : String) : List (Pred ℝ) :=
  (List.finRange 6).map
    (fun i => ⟨(predAt sdm i).name ++ tag, (predAt sdm i).color, zscore (rows i)⟩)

/-- Combined z-scored motion model, source lines 306-338: always the six
z-scored raw rows; derivative rows for model 12 and higher, squared rows for
18 and higher, squared-derivative rows for 24. -/
noncomputable def combined_model (model_type : String) (sdm : List (Pred ℝ)) : List (Pred ℝ) :=
  let cm0 := combined_block sdm (motion_of sdm) " zscored"
  let cm1 := if model_type = "12" ∨ model_type = "18" ∨ model_type = "24" then
               cm0 ++ combined_block sdm (motion_d_of sdm) " derivative" else cm0
  let cm2 := if model_type = "18" ∨ model_type = "24" then
               cm1 ++ combined_block sdm (fun i => npSquare (motion_of sdm i)) " squared"
             else cm1
  if model_type = "24" then
    cm2 ++ combined_block sdm (fun i => npSquare (motion_d_of sdm i)) " derivative_squared"
  else cm2

/-- Header of the combined-model document, source lines 340-341: a deep copy
of the input header with NrOfPredictors replaced by the model length. -/
def combined_header (hdr : SdmHeader) (cm : List (Pred ℝ)) : SdmHeader :=
  { hdr with NrOfPredictors := cm.length }

/-- One entry of `variant_specs`, source lines 85-90: output-name component,
row transformation, and name tag. -/
structure VariantSpec where
  vname : String
  func : (Fin 6 → List ℝ) → (Fin 6 → List ℝ) → Fin 6 → List ℝ
  tag : String

/-- The four motion variants, source lines 85-90. -/
noncomputable def variant_specs : List VariantSpec :=
  [⟨"zscored", fun m _ i => zscore (m i), " zscored"⟩,
   ⟨"derivative", fun _ d i => zscore (d i), " derivative"⟩,
   ⟨"squared", fun m _ i => zscore (npSquare (m i)), " squared"⟩,
   ⟨"derivative_squared", fun _ d i => zscore (npSquare (d i)), " derivative_squared"⟩]

/-- Variant transformation, source lines 298-303: a deep copy of the motion
SDM in which only the first six predictors get new values and a name tag;
every later predictor is left untouched. -/
noncomputable def apply_variant (spec : VariantSpec) (sdm : List (Pred ℝ)) : List (Pred ℝ) :=
  sdm.mapIdx (fun j p =>
    if h : j < 6 then
      ⟨p.name ++ spec.tag, p.color, spec.func (motion_of sdm) (motion_d_of sdm) ⟨j, h⟩⟩
    else p)

/-- The written variant document, source line 303: the ORIGINAL header
together with the transformed predictor list. -/
noncomputable def variant_doc (hdr : SdmHeader) (spec : VariantSpec) (sdm : List (Pred ℝ)) :
    SdmHeader × List (Pred ℝ) :=
  (hdr, apply_variant spec sdm)

/- ============== Framewise displacement (lines 92-117) ==================== -/

/-- deg2mm, source lines 92-98: arc length on a sphere of the given head
radius, `(deg * math.pi / 180) * head_radius`. -/
noncomputable def deg2mm (deg : ℝ) (head_radius : ℝ) : ℝ := deg * Real.pi / 180 * head_radius

/-- Zero-centering at the first timepoint, source line 106: `M - M[:, [0]]`.
A 6xN array is modelled as a function of row and time index. -/
def motion_zero (motion : Fin 6 → ℕ → ℝ) (i : Fin 6) (t : ℕ) : ℝ := motion i t - motion i 0

/-- Zero-centered trace with rotation rows (indices 3 to 5) converted from
degrees to millimeters, source line 109. -/
noncomputable def motion_zero_mm (motion : Fin 6 → ℕ → ℝ) (head_radius : ℝ)
    (i : Fin 6) (t : ℕ) : ℝ :=
  if 3 ≤ (i : ℕ) then deg2mm (motion_zero motion i t) head_radius
  else motion_zero motion i t

/-- compute_framewise_displacement, source lines 100-117: the sum over the
six parameters of the absolute first differences of the zero-centered,
unit-converted trace, with a zero prepended at time 0. -/
noncomputable def compute_framewise_displacement (motion : Fin 6 → ℕ → ℝ)
    (head_radius : ℝ) (t : ℕ) : ℝ :=
  if t = 0 then 0
  else ∑ i : Fin 6,
    |motion_zero_mm motion head_radius i t - motion_zero_mm motion head_radius i (t - 1)|

/-- Motion trace with a single 1 mm step in translation parameter 0 at
volume 5, all other parameters constant. -/
def step_trace : Fin 6 → ℕ → ℝ := fun i t => if i = 0 ∧ 5 ≤ t then 1 else 0

/-- A seven-predictor motion SDM fixture: six motion parameters plus one
extra confound column. -/
def motion_sdm_example : List (Pred ℝ) :=
  [⟨"Translation BV-X [mm]", [255, 0, 0], [0, 1]⟩,
   ⟨"Translation BV-Y [mm]", [0, 255, 0], [0, 2]⟩,
   ⟨"Translation BV-Z [mm]", [0, 0, 255], [0, 3]⟩,
   ⟨"Rotation BV-X [deg]", [255, 255, 0], [0, 4]⟩,
   ⟨"Rotation BV-Y [deg]", [255, 0, 255], [0, 5]⟩,
   ⟨"Rotation BV-Z [deg]", [0, 255, 255], [0, 6]⟩,
   ⟨"Extra", [0, 0, 0], [7, 7]⟩]

end BV

namespace BV

/- ===================== helper lemmas ===================== -/

theorem slice_assign_length {α : Type} (l : List α) (s t : ℤ) (v : α) :
    (slice_assign l s t v).length = l.length := by
  induction l generalizing s t with
  | nil => rfl
  | cons x xs ih => simp [slice_assign, ih]

theorem slice_assign_get? {α : Type} (l : List α) (s t : ℤ) (v : α) (i : ℕ) :
    (slice_assign l s t v).get? i =
      (l.get? i).map (fun x => if s ≤ (i:ℤ) ∧ (i:ℤ) ≤ t then v else x) := by
  induction l generalizing s t i with
  | nil => simp [slice_assign]
  | cons x xs ih =>
    cases i with
    | zero => simp [slice_assign]
    | succ n =>
      have hiff : (s - 1 ≤ (n:ℤ) ∧ (n:ℤ) ≤ t - 1) ↔
          (s ≤ ((n+1:ℕ):ℤ) ∧ ((n+1:ℕ):ℤ) ≤ t) := by push_cast; omega
      simp only [slice_assign, List.get?]
      rw [ih]
      simp only [hiff]

theorem pred_block_foldl_length {α : Type} [LinearOrderedField α] (msec : Bool)
    (TR fs : ℚ) (l : List (ℚ × ℚ)) (arr : List α) :
    (l.foldl (fun a p => slice_assign a (start_idx msec TR fs p.1)
      (stop_idx msec TR fs p.2) (1:α)) arr).length = arr.length := by
  induction l generalizing arr with
  | nil => rfl
  | cons hd tl ih => rw [List.foldl_cons, ih, slice_assign_length]

theorem pred_block_foldl_get? {α : Type} [LinearOrderedField α] (msec : Bool)
    (TR fs : ℚ) (l : List (ℚ × ℚ)) (arr : List α) (i : ℕ) (hi : i < arr.length) :
    (l.foldl (fun a p => slice_assign a (start_idx msec TR fs p.1)
        (stop_idx msec TR fs p.2) (1:α)) arr).get? i =
      if ∃ p ∈ l, start_idx msec TR fs p.1 ≤ (i:ℤ) ∧ (i:ℤ) ≤ stop_idx msec TR fs p.2
      then some 1 else arr.get? i := by
  induction l generalizing arr with
  | nil => simp
  | cons hd tl ih =>
    rw [List.foldl_cons, ih _ (by rw [slice_assign_length]; exact hi)]
    by_cases h1 : ∃ p ∈ tl,
        start_idx msec TR fs p.1 ≤ (i:ℤ) ∧ (i:ℤ) ≤ stop_idx msec TR fs p.2
    · rw [if_pos h1, if_pos]
      exact h1.elim (fun p hp => ⟨p, List.mem_cons_of_mem _ hp.1, hp.2⟩)
    · rw [if_neg h1, slice_assign_get?]
      by_cases h2 : start_idx msec TR fs hd.1 ≤ (i:ℤ) ∧ (i:ℤ) ≤ stop_idx msec TR fs hd.2
      · rw [List.get?_eq_get hi]
        simp only [Option.map_some']
        rw [if_pos h2, if_pos ⟨hd, List.mem_cons_self hd tl, h2⟩]
      · rw [if_neg (by
          intro hx
          rcases hx with ⟨p, hp, hcond⟩
          rcases List.mem_cons.mp hp with rfl | hpt
          · exact h2 hcond
          · exact h1 ⟨p, hpt, hcond⟩)]
        rw [List.get?_eq_get hi]
        simp only [Option.map_some']
        rw [if_neg h2]

theorem pred_block_hires_length {α : Type} [LinearOrderedField α]
    (starts stops : List ℚ) (msec : Bool) (TR : ℚ) (n_vols : ℕ) (fs : ℚ) :
    (pred_block_hires (α := α) starts stops msec TR n_vols fs).length =
      n_timepoints_hires n_vols TR fs := by
  unfold pred_block_hires
  rw [pred_block_foldl_length, List.length_replicate]

theorem pred_block_hires_get? {α : Type} [LinearOrderedField α]
    (starts stops : List ℚ) (msec : Bool) (TR : ℚ) (n_vols : ℕ) (fs : ℚ)
    (i : ℕ) (hi : i < n_timepoints_hires n_vols TR fs) :
    (pred_block_hires (α := α) starts stops msec TR n_vols fs).get? i =
      some (if ∃ p ∈ starts.zip stops,
              start_idx msec TR fs p.1 ≤ (i:ℤ) ∧ (i:ℤ) ≤ stop_idx msec TR fs p.2
            then 1 else 0) := by
  unfold pred_block_hires
  rw [pred_block_foldl_get? msec TR fs _ _ i (by rwa [List.length_replicate])]
  by_cases h : ∃ p ∈ starts.zip stops,
      start_idx msec TR fs p.1 ≤ (i:ℤ) ∧ (i:ℤ) ≤ stop_idx msec TR fs p.2
  · rw [if_pos h, if_pos h]
  · rw [if_neg h, if_neg h, List.get?_eq_getElem?, List.getElem?_replicate, if_pos hi]

theorem convolve_length {α : Type} [LinearOrderedField α] (a v : List α) :
    (convolve a v).length = a.length + v.length - 1 := by
  simp [convolve]

theorem resample0_length (xs : List ℚ) (q : ℕ) :
    (resample0 xs q).length = (xs.length + q - 1) / q := by
  simp [resample0]

theorem sum_map_sub_const (a : List ℚ) (c : ℚ) :
    (a.map (fun x => x - c)).sum = a.sum - a.length * c := by
  induction a with
  | nil => simp
  | cons x xs ih =>
    simp only [List.map_cons, List.sum_cons, ih, List.length_cons]
    push_cast
    ring

theorem sum_map_sub_mean (a : List ℚ) (h : a ≠ []) :
    (a.map (fun x => x - npMean a)).sum = 0 := by
  have hpos : 0 < a.length := List.length_pos.mpr h
  have hn : (a.length : ℚ) ≠ 0 := by exact_mod_cast hpos.ne'
  rw [sum_map_sub_const, npMean]
  field_simp

/-- C1. In `twogamma_hrf`, when both flags are requested and the kernel sum
exceeds 0.01, the code line `if ScaleToOne or sum_hrf <= 0.01` disables
sum-normalization first, so (provided the peak absolute value is at least
0.0001) the output is the raw kernel divided by its peak absolute value and
NOT by its sum. -/
theorem C1_both_flags_peak_scaling (hrf : List ℚ)
    (hsum : 1/100 < hrf.sum) (hpk : 1/10000 ≤ absFmax hrf) :
    hrf_normalize hrf true true = hrf.map (fun v => v / absFmax hrf) := by
  have h1 : ¬ hrf.sum ≤ 1/100 := not_le.mpr hsum
  have h2 : ¬ absFmax hrf < 1/10000 := not_lt.mpr hpk
  simp [hrf_normalize, h1]
  intro hlt
  exact absurd hlt (by simpa [one_div] using h2)

/-- C1 witness: concrete kernel with sum above 0.01 and peak at least 0.0001,
on which both-flags normalization divides by the peak absolute value. -/
theorem C1_both_flags_peak_scaling_witness :
    (1:ℚ)/100 < ([(1:ℚ)/2, 1/2]).sum ∧ (1:ℚ)/10000 ≤ absFmax [(1:ℚ)/2, 1/2] ∧
    hrf_normalize [(1:ℚ)/2, 1/2] true true =
      ([(1:ℚ)/2, 1/2]).map (fun v => v / absFmax [(1:ℚ)/2, 1/2]) :=
  ⟨by norm_num, by norm_num [absFmax, npMin, npMax, abs_of_pos],
    C1_both_flags_peak_scaling [(1:ℚ)/2, 1/2] (by norm_num)
      (by norm_num [absFmax, npMin, npMax, abs_of_pos])⟩

/-- C1 counterexample: for the kernel [1/2, 1/2] with both flags requested,
the sum is 1 (above 0.01) yet the output is [1, 1] (divided by the peak
absolute value 1/2), not the sum-normalized kernel [1/2, 1/2]. -/
theorem C1_counterexample :
    (1:ℚ)/100 < ([(1:ℚ)/2, 1/2]).sum ∧
    hrf_normalize [(1:ℚ)/2, 1/2] true true ≠
      ([(1:ℚ)/2, 1/2]).map (fun v => v / ([(1:ℚ)/2, 1/2]).sum) := by
  constructor
  · norm_num
  · norm_num [hrf_normalize, absFmax, npMin, npMax, abs_of_pos]

/-- C2 (amended). An interval whose stop index falls past the end of the
dense array is silently clipped by NumPy slice assignment: the rasterized
boxcar is written from its start index up to the last array position and the
rest of the interval is dropped without any error. -/
theorem C2_silent_truncation (s t TR : ℚ) (n_vols : ℕ) (fs : ℚ)
    (h0 : 0 ≤ start_idx true TR fs s)
    (h1 : (start_idx true TR fs s).toNat < n_timepoints_hires n_vols TR fs)
    (h2 : (n_timepoints_hires n_vols TR fs : ℤ) ≤ stop_idx true TR fs t) :
    pred_block_hires (α := ℚ) [s] [t] true TR n_vols fs =
      List.replicate (start_idx true TR fs s).toNat 0 ++
        List.replicate (n_timepoints_hires n_vols TR fs -
          (start_idx true TR fs s).toNat) 1 := by
  apply List.ext_get?
  intro i
  by_cases hin : i < n_timepoints_hires n_vols TR fs
  · rw [pred_block_hires_get? _ _ _ _ _ _ _ hin]
    have hzip : ([s].zip [t]) = [(s, t)] := rfl
    rw [hzip]
    have hstop : (i:ℤ) ≤ stop_idx true TR fs t :=
      le_trans (by exact_mod_cast Int.ofNat_le.mpr (le_of_lt hin)) h2
    by_cases hai : (start_idx true TR fs s).toNat ≤ i
    · have hcov : start_idx true TR fs s ≤ (i:ℤ) := by omega
      rw [if_pos ⟨(s,t), by simp, hcov, hstop⟩]
      rw [List.get?_append_right (by simpa [List.length_replicate] using hai)]
      simp only [List.get?_eq_getElem?, List.getElem?_replicate, List.length_replicate]
      rw [if_pos (by omega)]
    · have hcov : ¬ start_idx true TR fs s ≤ (i:ℤ) := by omega
      rw [if_neg (by
        intro hx
        rcases hx with ⟨p, hp, hc⟩
        rw [List.mem_singleton] at hp
        subst hp
        exact hcov hc.1)]
      rw [List.get?_append (by simpa [List.length_replicate] using lt_of_not_ge hai)]
      simp only [List.get?_eq_getElem?, List.getElem?_replicate]
      rw [if_pos (lt_of_not_ge hai)]
  · have hL : (pred_block_hires (α := ℚ) [s] [t] true TR n_vols fs).get? i = none := by
      rw [List.get?_eq_none]
      rw [pred_block_hires_length]
      omega
    have hR : (List.replicate (start_idx true TR fs s).toNat (0:ℚ) ++
        List.replicate (n_timepoints_hires n_vols TR fs -
          (start_idx true TR fs s).toNat) (1:ℚ)).get? i = none := by
      rw [List.get?_eq_none]
      simp only [List.length_append, List.length_replicate]
      omega
    rw [hL, hR]

/-- C2 witness: interval from 500 ms to 3000 ms with a 1000 ms extent (one
volume, TR 1000 ms, 2 Hz sampling) is silently written as a truncated
boxcar. -/
theorem C2_silent_truncation_witness :
    0 ≤ start_idx true 1000 2 500 ∧
    (start_idx true 1000 2 500).toNat < n_timepoints_hires 1 1000 2 ∧
    (n_timepoints_hires 1 1000 2 : ℤ) ≤ stop_idx true 1000 2 3000 ∧
    pred_block_hires (α := ℚ) [500] [3000] true 1000 1 2 =
      List.replicate (start_idx true 1000 2 500).toNat 0 ++
        List.replicate (n_timepoints_hires 1 1000 2 -
          (start_idx true 1000 2 500).toNat) 1 :=
  ⟨by norm_num [start_idx, start_sec, pyInt],
   by norm_num [start_idx, start_sec, pyInt, n_timepoints_hires],
   by norm_num [stop_idx, stop_sec, pyInt, n_timepoints_hires],
   C2_silent_truncation 500 3000 1000 1 2
     (by norm_num [start_idx, start_sec, pyInt])
     (by norm_num [start_idx, start_sec, pyInt, n_timepoints_hires])
     (by norm_num [stop_idx, stop_sec, pyInt, n_timepoints_hires])⟩

/-- C2 counterexample: the interval (0 ms, 3000 ms) extends past the
declared extent of 1 volume times 1000 ms, yet the rasterizer returns a
dense array (the truncated all-ones boxcar) and raises no error of any
kind. -/
theorem C2_counterexample :
    (1:ℚ) * 1000 < 3000 ∧
    (n_timepoints_hires 1 1000 2 : ℤ) ≤ stop_idx true 1000 2 3000 ∧
    pred_block_hires (α := ℚ) [0] [3000] true 1000 1 2 = [1, 1] := by
  refine ⟨by norm_num, ?_, ?_⟩
  · norm_num [n_timepoints_hires, stop_idx, stop_sec, pyInt]
  · norm_num [pred_block_hires, n_timepoints_hires, start_idx, stop_idx,
      start_sec, stop_sec, pyInt, slice_assign, List.replicate, List.zip]

/-- C5 (amended). For millisecond intervals the rasterizer uses truncating
integer conversion, not round-to-nearest: the dense output has length
`int(n_vols * TR / 1000 * fs)` and sample i is 1 exactly when some interval
satisfies `int(start/1000*fs) <= i <= int(stop/1000*fs)`. -/
theorem C5_floor_not_round (starts stops : List ℚ) (TR : ℚ) (n_vols : ℕ) (fs : ℚ) :
    (pred_block_hires (α := ℚ) starts stops true TR n_vols fs).length =
      (pyInt ((n_vols : ℚ) * TR / 1000 * fs)).toNat ∧
    ∀ i : ℕ, i < n_timepoints_hires n_vols TR fs →
      (pred_block_hires (α := ℚ) starts stops true TR n_vols fs).get? i =
        some (if ∃ p ∈ starts.zip stops,
                pyInt (p.1 / 1000 * fs) ≤ (i:ℤ) ∧ (i:ℤ) ≤ pyInt (p.2 / 1000 * fs)
              then 1 else 0) := by
  constructor
  · rw [pred_block_hires_length]; rfl
  · intro i hi
    rw [pred_block_hires_get? _ _ _ _ _ _ _ hi]
    rfl

/-- C5 witness: concrete millisecond interval evaluated through the floor
characterization. -/
theorem C5_floor_not_round_witness :
    ((0:ℕ) < n_timepoints_hires 1 1000 2) ∧
    (pred_block_hires (α := ℚ) [400] [400] true 1000 1 2).length =
      (pyInt ((1 : ℚ) * 1000 / 1000 * 2)).toNat ∧
    (pred_block_hires (α := ℚ) [400] [400] true 1000 1 2).get? 0 =
      some (if ∃ p ∈ [((400:ℚ), (400:ℚ))],
              pyInt (p.1 / 1000 * 2) ≤ ((0:ℕ):ℤ) ∧ ((0:ℕ):ℤ) ≤ pyInt (p.2 / 1000 * 2)
            then 1 else 0) :=
  ⟨by norm_num [n_timepoints_hires, pyInt],
   (C5_floor_not_round [400] [400] 1000 1 2).1,
   (C5_floor_not_round [400] [400] 1000 1 2).2 0
     (by norm_num [n_timepoints_hires, pyInt])⟩

/-- C5 counterexample: for the interval (400 ms, 400 ms) at 2 Hz the code
writes sample 0 (truncation of 0.8) while the round-to-nearest rasterizer
claimed by the spec writes sample 1; the two dense arrays differ. -/
theorem C5_counterexample :
    pred_block_hires (α := ℚ) [400] [400] true 1000 1 2 = [1, 0] ∧
    pred_block_hires_spec [400] [400] 1000 1 2 = [0, 1] ∧
    pred_block_hires (α := ℚ) [400] [400] true 1000 1 2 ≠
      pred_block_hires_spec [400] [400] 1000 1 2 := by
  refine ⟨?_, ?_, ?_⟩
  · norm_num [pred_block_hires, n_timepoints_hires, start_idx, stop_idx,
      start_sec, stop_sec, pyInt, slice_assign, List.replicate, List.zip]
  · norm_num [pred_block_hires_spec, slice_assign, List.replicate, List.zip, round_eq]
  · intro h
    rw [show pred_block_hires (α := ℚ) [400] [400] true 1000 1 2 = [1, 0] by
          norm_num [pred_block_hires, n_timepoints_hires, start_idx, stop_idx,
            start_sec, stop_sec, pyInt, slice_assign, List.replicate, List.zip],
        show pred_block_hires_spec [400] [400] 1000 1 2 = [0, 1] by
          norm_num [pred_block_hires_spec, slice_assign, List.replicate, List.zip,
            round_eq]] at h
    simp at h

/-- C3 (amended). Whenever the resampler obeys the documented
`resample_poly` output-length law, the number of samples per TR is positive,
the HRF kernel is nonempty and the high-resolution signal covers at least
`n_vols` TRs, the pipeline output has exactly `n_vols` samples; any excess
produced by resampling is silently cut off by the trailing slice, with no
length check and no error. -/
theorem C3_exact_length_silent_truncation (resample : List ℚ → ℕ → List ℚ)
    (hlen : ∀ xs q, 0 < q → (resample xs q).length = (xs.length + q - 1) / q)
    (block hrf : List ℚ) (fs TR : ℚ) (n_vols : ℕ)
    (hq : 0 < samples_per_TR fs TR)
    (hhrf : hrf ≠ [])
    (hblk : n_vols * samples_per_TR fs TR ≤ block.length) :
    (pred_conv resample block hrf fs TR n_vols).length = n_vols := by
  have hh : 1 ≤ hrf.length := List.length_pos.mpr hhrf
  simp only [pred_conv]
  rw [List.length_take, hlen _ _ hq]
  have hb : ((convolve block hrf).take block.length).length = block.length := by
    rw [List.length_take, convolve_length]
    omega
  rw [hb]
  have hge : n_vols ≤ (block.length + samples_per_TR fs TR - 1) / samples_per_TR fs TR := by
    rw [Nat.le_div_iff_mul_le hq]
    omega
  omega

/-- C3 witness: TR 2000 ms at 1 Hz (two samples per TR), one volume, a
three-sample high-resolution signal; the pipeline returns exactly one
sample. -/
theorem C3_exact_length_silent_truncation_witness :
    0 < samples_per_TR 1 2000 ∧ ([(1:ℚ)] ≠ ([] : List ℚ)) ∧
    1 * samples_per_TR 1 2000 ≤ ([(1:ℚ), 0, 0]).length ∧
    (pred_conv resample0 [(1:ℚ), 0, 0] [(1:ℚ)] 1 2000 1).length = 1 :=
  ⟨by norm_num [samples_per_TR, pyInt, Int.toNat_ofNat],
   by simp,
   by norm_num [samples_per_TR, pyInt, Int.toNat_ofNat],
   C3_exact_length_silent_truncation resample0
     (fun xs q _ => resample0_length xs q)
     [(1:ℚ), 0, 0] [(1:ℚ)] 1 2000 1
     (by norm_num [samples_per_TR, pyInt, Int.toNat_ofNat])
     (by simp)
     (by norm_num [samples_per_TR, pyInt, Int.toNat_ofNat])⟩

/-- C3 counterexample: with two samples per TR and one volume, resampling a
three-sample signal produces two samples, a mismatch with the expected
length 1; the spec-modelled pipeline raises ResampleLengthMismatch there,
while the code silently truncates to one sample and raises nothing. -/
theorem C3_counterexample :
    (resample0 ((convolve [(1:ℚ), 0, 0] [(1:ℚ)]).take ([(1:ℚ), 0, 0]).length)
        (samples_per_TR 1 2000)).length ≠ 1 ∧
    convolve_and_resample_spec resample0 [(1:ℚ), 0, 0] [(1:ℚ)] 1 2000 1 =
      Except.error SdmErr.resampleLengthMismatch ∧
    (pred_conv resample0 [(1:ℚ), 0, 0] [(1:ℚ)] 1 2000 1).length = 1 := by
  have hq : samples_per_TR 1 2000 = 2 := by
    norm_num [samples_per_TR, pyInt]
    decide
  have hprod : (resample0 ((convolve [(1:ℚ), 0, 0] [(1:ℚ)]).take
      ([(1:ℚ), 0, 0]).length) (samples_per_TR 1 2000)).length = 2 := by
    rw [resample0_length, List.length_take, convolve_length, hq]
    norm_num
  refine ⟨by rw [hprod]; norm_num, ?_, ?_⟩
  · simp only [convolve_and_resample_spec]
    rw [if_neg (by rw [hprod]; norm_num)]
  · simp only [pred_conv]
    rw [List.length_take, hprod]
    norm_num

/-- C4 (amended). The weight standardizer is the total function with
mode 0 the identity, mode 1 subtracting the mean (the demeaned weights sum
to zero), and mode 2 dividing the demeaned weights by the standard
deviation; it contains no zero-variance check, so on constant input mode 2
still returns a full-length list (of degenerate values) instead of raising
an error. -/
theorem C4_standardizer_total (a : List ℚ) (h : a ≠ []) :
    create_weights a 0 = a.map (fun x => (x : ℝ)) ∧
    create_weights a 1 = a.map (fun x => ((x - npMean a : ℚ) : ℝ)) ∧
    (a.map (fun x => x - npMean a)).sum = 0 ∧
    create_weights a 2 = a.map (fun x => ((x - npMean a : ℚ) : ℝ) / npStd a) ∧
    (create_weights a 2).length = a.length := by
  refine ⟨by simp [create_weights], by simp [create_weights], sum_map_sub_mean a h,
    by simp [create_weights], by simp [create_weights]⟩

/-- C4 witness: the standardizer evaluated on the weight vector [1, 2]. -/
theorem C4_standardizer_total_witness :
    ([(1:ℚ), 2] ≠ ([] : List ℚ)) ∧
    (([(1:ℚ), 2]).map (fun x => x - npMean [(1:ℚ), 2])).sum = 0 ∧
    (create_weights [(1:ℚ), 2] 2).length = ([(1:ℚ), 2]).length :=
  ⟨by simp,
   (C4_standardizer_total [(1:ℚ), 2] (by simp)).2.2.1,
   (C4_standardizer_total [(1:ℚ), 2] (by simp)).2.2.2.2⟩

/-- C4 counterexample: the constant weight vector [1, 1] has variance 0, so
the spec-modelled standardizer raises ZeroVariance in mode 2, but the code
raises nothing: `create_weights` still returns a two-element list (NaN
values in NumPy, division by zero here). -/
theorem C4_counterexample :
    npVar [(1:ℚ), 1] = 0 ∧
    standardize_spec [(1:ℚ), 1] 2 = Except.error SdmErr.zeroVariance ∧
    (create_weights [(1:ℚ), 1] 2).length = 2 := by
  have hv : npVar [(1:ℚ), 1] = 0 := by norm_num [npVar, npMean]
  refine ⟨hv, ?_, by simp [create_weights]⟩
  simp [standardize_spec, hv]

/-- C6. The assembled design ends with exactly one predictor named
Constant, with white color and all values 1.0 of length `n_vols`, as its
final entry; and the header metadata satisfies: predictor count equals the
length of the predictor sequence, the constant-included flag is set, and the
first-confound-predictor index equals the total predictor count. -/
theorem C6_constant_and_header (α : Type) [LinearOrderedField α]
    (sdm : List (Pred α)) (n_vols : ℕ)
    (h : "Constant" ∉ sdm.map Pred.name) :
    (sdm_with_constant sdm n_vols).getLast? =
        some ⟨"Constant", [255, 255, 255], List.replicate n_vols 1⟩ ∧
    ((sdm_with_constant sdm n_vols).filter (fun p => p.name == "Constant")).length = 1 ∧
    (sdm_header_of (sdm_with_constant sdm n_vols) n_vols).NrOfPredictors =
        (sdm_with_constant sdm n_vols).length ∧
    (sdm_header_of (sdm_with_constant sdm n_vols) n_vols).IncludesConstant = 1 ∧
    (sdm_header_of (sdm_with_constant sdm n_vols) n_vols).FirstConfoundPredictor =
        (sdm_with_constant sdm n_vols).length ∧
    (sdm_header_of (sdm_with_constant sdm n_vols) n_vols).NrOfDataPoints = n_vols := by
  refine ⟨List.getLast?_concat sdm, ?_, rfl, rfl, rfl, rfl⟩
  have hnil : sdm.filter (fun p => p.name == "Constant") = [] := by
    rw [List.filter_eq_nil]
    intro p hp
    simp only [beq_iff_eq]
    intro hname
    exact h (by rw [← hname]; exact List.mem_map_of_mem Pred.name hp)
  rw [sdm_with_constant, List.filter_append, hnil]
  simp [constant_pred]

/-- C6 witness: a one-condition design over the rationals. -/
theorem C6_constant_and_header_witness :
    ("Constant" ∉ ([⟨"A", [0, 0, 0], [1, 2]⟩] : List (Pred ℚ)).map Pred.name) ∧
    (sdm_with_constant ([⟨"A", [0, 0, 0], [1, 2]⟩] : List (Pred ℚ)) 2).getLast? =
      some ⟨"Constant", [255, 255, 255], List.replicate 2 1⟩ ∧
    (sdm_header_of (sdm_with_constant ([⟨"A", [0, 0, 0], [1, 2]⟩] : List (Pred ℚ)) 2)
        2).FirstConfoundPredictor =
      (sdm_with_constant ([⟨"A", [0, 0, 0], [1, 2]⟩] : List (Pred ℚ)) 2).length :=
  ⟨by simp,
   (C6_constant_and_header ℚ [⟨"A", [0, 0, 0], [1, 2]⟩] 2 (by simp)).1,
   (C6_constant_and_header ℚ [⟨"A", [0, 0, 0], [1, 2]⟩] 2 (by simp)).2.2.2.2.1⟩

theorem emit_cond_append (resample : List ℝ → ℕ → List ℝ) (hrf : List ℝ)
    (fs TR : ℚ) (n_vols : ℕ) (msec sp dp : Bool) (sw : Fin 3) (hdr : PrtHeader)
    (sdm : List (Pred ℝ)) (cond : Cond) :
    emit_cond resample hrf fs TR n_vols msec sp dp sw hdr sdm cond =
      sdm ++ emit_cond resample hrf fs TR n_vols msec sp dp sw hdr [] cond := by
  simp only [emit_cond]
  by_cases h : add_parametric_predictor hdr dp cond
  · rw [if_pos h, if_pos h]
    simp [List.dropLast_concat]
  · rw [if_neg h, if_neg h]
    simp

theorem sdm_foldl_flatMap (resample : List ℝ → ℕ → List ℝ) (hrf : List ℝ)
    (fs TR : ℚ) (n_vols : ℕ) (msec sp dp : Bool) (sw : Fin 3) (hdr : PrtHeader)
    (conds : List Cond) (init : List (Pred ℝ)) :
    conds.foldl (emit_cond resample hrf fs TR n_vols msec sp dp sw hdr) init =
      init ++ conds.flatMap (emit_cond resample hrf fs TR n_vols msec sp dp sw hdr []) := by
  induction conds generalizing init with
  | nil => simp
  | cons c cs ih =>
    rw [List.foldl_cons, ih, emit_cond_append, List.flatMap_cons, List.append_assoc]

/-- C9. The design loop emits, for every condition, exactly one predictor
with the unmodified condition name, except when parametric weights are
declared in the protocol header with value 1, parametric generation is
enabled and the condition weights take more than one distinct value; in that
case it emits the main predictor renamed with the Main tag immediately
followed by a predictor with the Parametric tag carrying the same color and
the convolved weighted boxcar. -/
theorem C9_parametric_emission (resample : List ℝ → ℕ → List ℝ) (hrf : List ℝ)
    (fs TR : ℚ) (n_vols : ℕ) (msec ScalePred1 define_para_sdm : Bool)
    (sw : Fin 3) (hdr : PrtHeader) (conds : List Cond) :
    (sdm_data_of resample hrf fs TR n_vols msec ScalePred1 define_para_sdm sw hdr conds =
      conds.flatMap (fun cond =>
        let block : List ℝ := pred_block_hires cond.starts cond.stops msec TR n_vols fs
        let pc0 := pred_conv resample block hrf fs TR n_vols
        let pc := if ScalePred1 = true then pc0.map (fun v => v / npMax pc0) else pc0
        if add_parametric_predictor hdr define_para_sdm cond then
          [⟨cond.name ++ " [Main]", cond.color, pc⟩,
           ⟨cond.name ++ " [Parametric]", cond.color,
             pred_conv resample
               (pred_weights_hires cond.starts cond.stops
                 (create_weights cond.pweights sw) msec TR n_vols fs)
               hrf fs TR n_vols⟩]
        else [⟨cond.name, cond.color, pc⟩])) ∧
    ∀ cond : Cond, add_parametric_predictor hdr define_para_sdm cond ↔
      (hdr.parametricWeights = some 1 ∧ define_para_sdm = true ∧
        1 < cond.pweights.dedup.length) := by
  constructor
  · rw [sdm_data_of, sdm_foldl_flatMap, List.nil_append]
    congr 1
  · intro cond
    exact Iff.rfl

theorem step_mzm (hr : ℝ) (i : Fin 6) (t : ℕ) :
    motion_zero_mm step_trace hr i t = if i = 0 ∧ 5 ≤ t then 1 else 0 := by
  by_cases hi : i = 0
  · subst hi
    have h3 : ¬ (3:ℕ) ≤ ((0:Fin 6):ℕ) := by decide
    simp [motion_zero_mm, motion_zero, step_trace, deg2mm, h3]
  · have h1 : ∀ s : ℕ, step_trace i s = 0 := by
      intro s
      simp [step_trace, hi]
    simp [motion_zero_mm, motion_zero, deg2mm, h1, hi]

theorem step_fd_closed (t : ℕ) (ht : t ≠ 0) :
    compute_framewise_displacement step_trace 50 t =
      |(if 5 ≤ t then (1:ℝ) else 0) - (if 5 ≤ t - 1 then (1:ℝ) else 0)| := by
  have e1 : ((1:Fin 6) = 0) = False := eq_false (by decide)
  have e2 : ((2:Fin 6) = 0) = False := eq_false (by decide)
  have e3 : ((3:Fin 6) = 0) = False := eq_false (by decide)
  have e4 : ((4:Fin 6) = 0) = False := eq_false (by decide)
  have e5 : ((5:Fin 6) = 0) = False := eq_false (by decide)
  simp only [compute_framewise_displacement, if_neg ht, Fin.sum_univ_six]
  simp only [step_mzm, e1, e2, e3, e4, e5, false_and, if_false,
    eq_self_iff_true, true_and]
  norm_num

/-- C7. Framewise displacement follows the zero-center, degree-to-mm,
sum-of-absolute-differences formula with FD 0 = 0; and on the trace with a
single 1 mm translation step at volume 5 it is 1 at volume 5 and 0 at every
other volume of the run. -/
theorem C7_framewise_displacement :
    (∀ (motion : Fin 6 → ℕ → ℝ) (t : ℕ), 1 ≤ t →
      compute_framewise_displacement motion 50 t =
        ∑ i : Fin 6,
          |(if 3 ≤ (i:ℕ) then (motion i t - motion i 0) * Real.pi / 180 * 50
            else motion i t - motion i 0) -
           (if 3 ≤ (i:ℕ) then (motion i (t-1) - motion i 0) * Real.pi / 180 * 50
            else motion i (t-1) - motion i 0)|) ∧
    (∀ motion : Fin 6 → ℕ → ℝ, compute_framewise_displacement motion 50 0 = 0) ∧
    compute_framewise_displacement step_trace 50 5 = 1 ∧
    (∀ t : ℕ, 0 < t → t < 8 → t ≠ 5 →
      compute_framewise_displacement step_trace 50 t = 0) := by
  refine ⟨?_, ?_, ?_, ?_⟩
  · intro motion t ht
    have ht0 : t ≠ 0 := by omega
    simp only [compute_framewise_displacement, motion_zero_mm, motion_zero, deg2mm,
      if_neg ht0]
  · intro motion
    simp [compute_framewise_displacement]
  · rw [step_fd_closed 5 (by norm_num)]
    norm_num
  · intro t h0 h8 h5
    interval_cases t
    · rw [step_fd_closed 1 (by norm_num)]; norm_num
    · rw [step_fd_closed 2 (by norm_num)]; norm_num
    · rw [step_fd_closed 3 (by norm_num)]; norm_num
    · rw [step_fd_closed 4 (by norm_num)]; norm_num
    · exact absurd rfl h5
    · rw [step_fd_closed 6 (by norm_num)]; norm_num
    · rw [step_fd_closed 7 (by norm_num)]; norm_num

/-- C7 witness: the framewise displacement of the step trace evaluated at
volumes 0, 3 and 5. -/
theorem C7_framewise_displacement_witness :
    compute_framewise_displacement step_trace 50 5 = 1 ∧
    compute_framewise_displacement step_trace 50 3 = 0 ∧
    compute_framewise_displacement step_trace 50 0 = 0 :=
  ⟨C7_framewise_displacement.2.2.1,
   C7_framewise_displacement.2.2.2 3 (by norm_num) (by norm_num) (by norm_num),
   C7_framewise_displacement.2.1 step_trace⟩

/-- C8. The combined motion model of requested size 12 is exactly the six
z-scored raw rows followed by the six z-scored derivative rows; size 18
appends the six z-scored squared rows; size 24 further appends the six
z-scored squared-derivative rows; and the written header predictor count is
12, 18 or 24 respectively. -/
theorem C8_combined_model (hdr : SdmHeader) (sdm : List (Pred ℝ)) :
    (combined_model "12" sdm =
        (List.finRange 6).map (fun i => ⟨(predAt sdm i).name ++ " zscored",
            (predAt sdm i).color, zscore (motion_of sdm i)⟩) ++
        (List.finRange 6).map (fun i => ⟨(predAt sdm i).name ++ " derivative",
            (predAt sdm i).color, zscore (motion_d_of sdm i)⟩) ∧
      (combined_header hdr (combined_model "12" sdm)).NrOfPredictors = 12) ∧
    (combined_model "18" sdm =
        (List.finRange 6).map (fun i => ⟨(predAt sdm i).name ++ " zscored",
            (predAt sdm i).color, zscore (motion_of sdm i)⟩) ++
        (List.finRange 6).map (fun i => ⟨(predAt sdm i).name ++ " derivative",
            (predAt sdm i).color, zscore (motion_d_of sdm i)⟩) ++
        (List.finRange 6).map (fun i => ⟨(predAt sdm i).name ++ " squared",
            (predAt sdm i).color, zscore (npSquare (motion_of sdm i))⟩) ∧
      (combined_header hdr (combined_model "18" sdm)).NrOfPredictors = 18) ∧
    (combined_model "24" sdm =
        (List.finRange 6).map (fun i => ⟨(predAt sdm i).name ++ " zscored",
            (predAt sdm i).color, zscore (motion_of sdm i)⟩) ++
        (List.finRange 6).map (fun i => ⟨(predAt sdm i).name ++ " derivative",
            (predAt sdm i).color, zscore (motion_d_of sdm i)⟩) ++
        (List.finRange 6).map (fun i => ⟨(predAt sdm i).name ++ " squared",
            (predAt sdm i).color, zscore (npSquare (motion_of sdm i))⟩) ++
        (List.finRange 6).map (fun i => ⟨(predAt sdm i).name ++ " derivative_squared",
            (predAt sdm i).color, zscore (npSquare (motion_d_of sdm i))⟩) ∧
      (combined_header hdr (combined_model "24" sdm)).NrOfPredictors = 24) := by
  have f1 : (("12":String) = "18") = False := eq_false (by decide)
  have f2 : (("12":String) = "24") = False := eq_false (by decide)
  have f3 : (("18":String) = "12") = False := eq_false (by decide)
  have f4 : (("18":String) = "24") = False := eq_false (by decide)
  have f5 : (("24":String) = "12") = False := eq_false (by decide)
  have f6 : (("24":String) = "18") = False := eq_false (by decide)
  refine ⟨⟨?_, ?_⟩, ⟨?_, ?_⟩, ⟨?_, ?_⟩⟩ <;>
    simp only [combined_model, combined_header, f1, f2, f3, f4, f5, f6,
      eq_self_iff_true, true_or, or_true, or_false, false_or, if_true, if_false] <;>
    first
      | rfl
      | (simp only [combined_block, List.length_append, List.length_map,
          List.length_finRange]
         norm_num)

/-- C10. Each of the four variant documents keeps the input header
unchanged and transforms only the first six predictors: the output has the
same length, every predictor at index 6 or beyond is written out unchanged,
and each of the first six gets the transformed values and tagged name with
its color kept. -/
theorem C10_variants_frame (spec : VariantSpec) (hspec : spec ∈ variant_specs)
    (hdr : SdmHeader) (sdm : List (Pred ℝ)) :
    (variant_doc hdr spec sdm).1 = hdr ∧
    (variant_doc hdr spec sdm).2.length = sdm.length ∧
    (∀ j : ℕ, 6 ≤ j → (variant_doc hdr spec sdm).2.get? j = sdm.get? j) ∧
    (∀ (j : ℕ) (hj : j < 6), j < sdm.length →
      (variant_doc hdr spec sdm).2.get? j =
        some ⟨(predAt sdm j).name ++ spec.tag, (predAt sdm j).color,
          spec.func (motion_of sdm) (motion_d_of sdm) ⟨j, hj⟩⟩) := by
  refine ⟨rfl, ?_, ?_, ?_⟩
  · simp [variant_doc, apply_variant, List.length_mapIdx]
  · intro j hj
    simp only [variant_doc, apply_variant, List.get?_eq_getElem?, List.getElem?_mapIdx]
    cases hsj : sdm[j]? with
    | none => rfl
    | some p => simp [Nat.not_lt.mpr hj]
  · intro j hj hjl
    have hget : sdm.get? j = some (sdm.get ⟨j, hjl⟩) := List.get?_eq_get hjl
    have hpred : predAt sdm j = sdm.get ⟨j, hjl⟩ := by rw [predAt, hget]; rfl
    simp only [variant_doc, apply_variant]
    rw [List.get?_eq_getElem?, List.getElem?_mapIdx, ← List.get?_eq_getElem?, hget]
    simp only [Option.map_some']
    rw [dif_pos hj, hpred]

/-- C10 witness: the zscored variant of a seven-predictor motion SDM leaves
the header and the seventh predictor unchanged. -/
theorem C10_variants_frame_witness :
    (⟨"zscored", fun m _ i => zscore (m i), " zscored"⟩ : VariantSpec) ∈ variant_specs ∧
    (variant_doc ⟨1, 7, 2, 0, 1⟩ ⟨"zscored", fun m _ i => zscore (m i), " zscored"⟩
        motion_sdm_example).1 = ⟨1, 7, 2, 0, 1⟩ ∧
    (variant_doc ⟨1, 7, 2, 0, 1⟩ ⟨"zscored", fun m _ i => zscore (m i), " zscored"⟩
        motion_sdm_example).2.get? 6 = motion_sdm_example.get? 6 :=
  ⟨by rw [variant_specs]; exact List.mem_cons_self _ _,
   (C10_variants_frame ⟨"zscored", fun m _ i => zscore (m i), " zscored"⟩
     (by rw [variant_specs]; exact List.mem_cons_self _ _) ⟨1, 7, 2, 0, 1⟩
     motion_sdm_example).1,
   (C10_variants_frame ⟨"zscored", fun m _ i => zscore (m i), " zscored"⟩
     (by rw [variant_specs]; exact List.mem_cons_self _ _) ⟨1, 7, 2, 0, 1⟩
     motion_sdm_example).2.2.1 6 (by norm_num)⟩

end BV
